import Mathlib

set_option maxHeartbeats 1600000

namespace AntiGravity

/- Shallow embedding of src/antigravity_extension_v3/popup.js: the Gemini
   summary client (handleSummarize / callGeminiAPI / tryGenerateContent /
   checkModels) and the content extractor (getVisibleText).  JavaScript
   strings become Lean String / List Char, the fetch transport is an oracle
   supplied to each operation, and thrown JavaScript exceptions are explicit
   Except values.  Strings that in the source contain apostrophes are written
   with the ' escape. -/

/-- A thrown JavaScript exception: either a new Error(msg) raised by the code
itself, or a runtime TypeError (failed property access on undefined, or a
rejected fetch).  Both expose a message. -/
inductive JsError where
  | error (msg : String)
  | typeError (msg : String)
deriving DecidableEq

/-- The message property of a thrown exception. -/
def JsError.message : JsError → String
  | .error m => m
  | .typeError m => m

deriving instance DecidableEq for Except

/-- JavaScript string defaulting with the binary or operator, as in
data.error?.message || "Unknown API Error": an absent value and the empty
string are both falsy. -/
def jsStrOr (s : Option String) (d : String) : String :=
  match s with
  | some m => if m = "" then d else m
  | none => d

/-- One element of a candidate parts array; the text field may be absent. -/
structure GenPart where
  text : Option String
deriving DecidableEq

/-- The content object of a response candidate; the parts field may be absent. -/
structure GenContent where
  parts : Option (List GenPart)
deriving DecidableEq

/-- One element of the candidates array; the content field may be absent. -/
structure GenCandidate where
  content : Option GenContent
deriving DecidableEq

/-- The JSON body of a generateContent response as read by popup.js lines
248-260: ok is response.ok, errorMessage is data.error?.message, candidates
is data.candidates.  Option marks fields that may be absent. -/
structure GenResponse where
  ok : Bool
  errorMessage : Option String
  candidates : Option (List GenCandidate)
deriving DecidableEq

/-- Outcome of one generation fetch: a parsed response, or a rejected
fetch/json() call (a TypeError such as "Failed to fetch"). -/
inductive GenFetch where
  | resp (r : GenResponse)
  | netError (msg : String)
deriving DecidableEq

/-- popup.js lines 242-260, the response handling of tryGenerateContent.  A
non-ok status throws Error(data.error?.message || "Unknown API Error"); a
missing or empty candidates array throws Error("No summary returned from
Gemini."); otherwise the unguarded access candidates[0].content.parts[0].text
either produces the text value (possibly undefined, hence Option) or raises a
TypeError when content or parts is absent or parts is empty.  The TypeError
messages follow the V8 wording; only the error class matters below. -/
def tryGenerateContent (f : GenFetch) : Except JsError (Option String) :=
  match f with
  | .netError m => .error (.typeError m)
  | .resp r =>
    if r.ok = false then
      .error (.error (jsStrOr r.errorMessage "Unknown API Error"))
    else
      match r.candidates with
      | some (c :: _) =>
        match c.content with
        | none => .error (.typeError "Cannot read properties of undefined (reading 'parts')")
        | some cc =>
          match cc.parts with
          | none => .error (.typeError "Cannot read properties of undefined (reading '0')")
          | some [] => .error (.typeError "Cannot read properties of undefined (reading 'text')")
          | some (p :: _) => .ok p.text
      | _ => .error (.error "No summary returned from Gemini.")

/-- One entry of the models array of a ListModels response. -/
structure ListedModel where
  name : String
  supportedGenerationMethods : Option (List String)
deriving DecidableEq

/-- The JSON body of a ListModels response; the models field may be absent. -/
structure ListResponse where
  ok : Bool
  models : Option (List ListedModel)
deriving DecidableEq

/-- Outcome of the model-listing fetch: a parsed response, or a rejected
fetch/json() call. -/
inductive ListFetch where
  | resp (r : ListResponse)
  | netError
deriving DecidableEq

/-- popup.js lines 154-157: a model is kept when supportedGenerationMethods
exists (JavaScript truthiness; an empty array is truthy) and includes
"generateContent". -/
def isCapable (m : ListedModel) : Bool :=
  match m.supportedGenerationMethods with
  | some gs => gs.contains "generateContent"
  | none => false

/-- JavaScript String.replace with a string pattern: replaces only the first
occurrence of pat, scanning left to right; with no occurrence the list is
unchanged.  Modeled for nonempty pat (the code always passes "models/"). -/
def jsReplaceFirstL (pat rep : List Char) : List Char → List Char
  | [] => []
  | c :: cs =>
    if pat.isPrefixOf (c :: cs) then rep ++ (c :: cs).drop pat.length
    else c :: jsReplaceFirstL pat rep cs

/-- String wrapper for jsReplaceFirstL. -/
def jsReplaceFirst (s pat rep : String) : String :=
  ⟨jsReplaceFirstL pat.data rep.data s.data⟩

/-- popup.js lines 136-167, checkModels.  The empty-key guard returns null;
a rejected fetch or a non-ok response returns null; a body without a models
field returns []; otherwise the capable models are kept and each name has
its first "models/" occurrence removed. -/
def checkModels (apiKey : String) (f : ListFetch) : Option (List String) :=
  if apiKey = "" then none
  else
    match f with
    | .netError => none
    | .resp r =>
      if r.ok = false then none
      else
        match r.models with
        | some ms => some ((ms.filter isCapable).map fun m => jsReplaceFirst m.name "models/" "")
        | none => some []

/-- Substring occurrence on character lists, checking a prefix match at each
position from the left. -/
def containsSubL (pat : List Char) : List Char → Bool
  | [] => pat.isEmpty
  | c :: cs => pat.isPrefixOf (c :: cs) || containsSubL pat cs

/-- JavaScript String.includes. -/
def jsIncludes (s pat : String) : Bool := containsSubL pat.data s.data

/-- popup.js line 191: the sweep keeps trying further models exactly when the
error message includes "not found" or "not supported"; any other message is
rethrown at once. -/
def isRetryableMsg (msg : String) : Bool :=
  jsIncludes msg "not found" || jsIncludes msg "not supported"

/-- popup.js lines 171-175, the static preference list. -/
def staticModels : List String :=
  ["gemini-1.5-flash", "gemini-1.5-flash-latest", "gemini-pro"]

/-- Result of the for-loop over modelsToTry (popup.js lines 185-196): either
the loop terminated the whole call (a successful return or a rethrown fatal
error), or every candidate failed with a retryable signature and control fell
through carrying lastError.  The second component lists the models attempted,
in order. -/
inductive SweepRes where
  | exit (r : Except JsError (Option String)) (attempts : List String)
  | fellThrough (lastError : Option JsError) (attempts : List String)
deriving DecidableEq

/-- popup.js lines 182-196: try each candidate once; on success return; on a
failure whose message lacks both signatures rethrow; otherwise record the
error as lastError and continue. -/
def sweep (gen : String → GenFetch) : List String → Option JsError → SweepRes
  | [], lastError => .fellThrough lastError []
  | m :: ms, lastError =>
    match tryGenerateContent (gen m) with
    | .ok t => .exit (.ok t) [m]
    | .error e =>
      if isRetryableMsg e.message then
        match sweep gen ms (some e) with
        | .exit r tr => .exit r (m :: tr)
        | .fellThrough l tr => .fellThrough l (m :: tr)
      else
        .exit (.error e) [m]

/-- The transport a single summarize call runs against: a generation response
for each model name, and one listing response. -/
structure World where
  gen : String → GenFetch
  listing : ListFetch

/-- Observable outcome of one callGeminiAPI run: its returned value or thrown
error, the validModelName cache after the run, the generation attempts made
(model names, in order) and whether the listing endpoint was called. -/
structure CallOutcome where
  result : Except JsError (Option String)
  newValid : Option String
  genAttempts : List String
  listCalled : Bool
deriving DecidableEq

/-- popup.js line 216: the terminal error text, with the JavaScript falsy
default lastError?.message || "Unknown". -/
def terminalMsg (lastError : Option JsError) : String :=
  "Could not find any working Gemini model. Last error: " ++
    jsStrOr (lastError.map JsError.message) "Unknown"

/-- popup.js lines 198-216: after the static sweep fell through, list the
models; with a first discovered candidate attempt it once, caching it only on
success; otherwise (and on a failed attempt) throw the terminal error. -/
def discoveryStep (apiKey : String) (w : World) (validModelName : Option String)
    (tr : List String) (lastError : Option JsError) : CallOutcome :=
  match checkModels apiKey w.listing with
  | some (fb :: _) =>
    match tryGenerateContent (w.gen fb) with
    | .ok t => ⟨.ok t, some fb, tr ++ [fb], true⟩
    | .error e => ⟨.error (.error (terminalMsg (some e))), validModelName, tr ++ [fb], true⟩
  | _ => ⟨.error (.error (terminalMsg lastError)), validModelName, tr, true⟩

/-- popup.js lines 171-180: the candidate list is [validModelName] when the
cache holds a JavaScript-truthy value (line 178, if (validModelName): null
and the empty string are both falsy), else the static preference list. -/
def modelsToTry (validModelName : Option String) : List String :=
  match validModelName with
  | some v => if v = "" then staticModels else [v]
  | none => staticModels

/-- popup.js lines 169-217, callGeminiAPI: build the candidate list, run the
sweep, and on fall-through run dynamic discovery. -/
def callGeminiAPI (apiKey : String) (validModelName : Option String) (w : World) : CallOutcome :=
  match sweep w.gen (modelsToTry validModelName) none with
  | .exit r tr => ⟨r, validModelName, tr, false⟩
  | .fellThrough lastError tr => discoveryStep apiKey w validModelName tr lastError

/-- Observable outcome of handleSummarize: the missing-key short circuit with
its status message, or a completed API call.  The extraction steps between
the key guard and the API call issue no API network traffic and are
abstracted away. -/
inductive SummarizeOutcome where
  | missingKey (statusMsg : String)
  | ran (o : CallOutcome)
deriving DecidableEq

/-- popup.js lines 70-75 and 104: the empty-key guard runs before anything
else; JavaScript !API_KEY is true exactly for the empty string. -/
def handleSummarize (apiKey : String) (validModelName : Option String) (w : World) :
    SummarizeOutcome :=
  if apiKey = "" then .missingKey "Missing API Key. Click 'Settings' to add it."
  else .ran (callGeminiAPI apiKey validModelName w)

/-- Number of network requests (generation fetches plus the listing fetch)
issued by one summarize outcome. -/
def networkCalls : SummarizeOutcome → Nat
  | .missingKey _ => 0
  | .ran o => o.genAttempts.length + (if o.listCalled then 1 else 0)

/-- popup.js line 222: const maxLength = 100000. -/
def maxLength : Nat := 100000

/-- popup.js line 223: text.slice(0, maxLength) keeps the first maxLength
characters. -/
def truncatedText (text : List Char) : List Char := text.take maxLength

/-- The fixed prompt preceding the truncated page text inside the request
payload: popup.js lines 228-237, the template literal up to the final
interpolation, with its literal indentation. -/
def promptHeader : String :=
  "Please provide a **highly detailed and verbose summary** of the following web page content. \n                    \n                    Structure:\n                    1. **Executive Summary**: A high-level overview.\n                    2. **Key Points**: Detailed bullet points of the main arguments/facts.\n                    3. **Analysis/Details**: deep dive into the specific content.\n                    \n                    Format the output with Markdown.\n                    \n                    Content: \n\n"

/-- The text field of the single part of the outgoing request body
(popup.js lines 225-240). -/
def requestText (text : List Char) : List Char :=
  promptHeader.data ++ truncatedText text

/-- The spec-worded view of discovery name cleanup (for comparison with the
source): "the client strips any models/ prefix from returned names", i.e. a
leading "models/" is removed and nothing else changes. -/
def specStripModels (s : String) : String :=
  if "models/".data.isPrefixOf s.data then ⟨s.data.drop 7⟩ else s

/-- Characters matched by the JavaScript regular expression class \s (and
removed by String.prototype.trim): ASCII whitespace, NBSP, Ogham space mark,
the Unicode space separators, line and paragraph separators, narrow no-break
space, mathematical space, ideographic space and the BOM. -/
def isWs (c : Char) : Bool :=
  c.toNat == 0x9 || c.toNat == 0xA || c.toNat == 0xB || c.toNat == 0xC ||
  c.toNat == 0xD || c.toNat == 0x20 || c.toNat == 0xA0 || c.toNat == 0x1680 ||
  (Nat.ble 0x2000 c.toNat && Nat.ble c.toNat 0x200A) ||
  c.toNat == 0x2028 || c.toNat == 0x2029 || c.toNat == 0x202F ||
  c.toNat == 0x205F || c.toNat == 0x3000 || c.toNat == 0xFEFF

/-- One pass of content.js text.replace(/\s+/g, " "): prevWs records whether
the previous input character was whitespace, so each maximal whitespace run
emits exactly one space. -/
def collapseAux : Bool → List Char → List Char
  | _, [] => []
  | prevWs, c :: cs =>
    if isWs c then
      if prevWs then collapseAux true cs
      else ' ' :: collapseAux true cs
    else
      c :: collapseAux false cs

/-- content.js line 441, the global whitespace collapse. -/
def jsCollapseWs (l : List Char) : List Char := collapseAux false l

/-- JavaScript String.prototype.trim: drop whitespace from both ends. -/
def jsTrimL (l : List Char) : List Char :=
  ((l.dropWhile isWs).reverse.dropWhile isWs).reverse

/-- content.js lines 439-441 on character lists: collapse whitespace runs,
then trim.  The DOM cloning, noise-subtree removal and innerText reading that
precede this step are abstracted as the incoming raw text. -/
def getVisibleTextClean (l : List Char) : List Char := jsTrimL (jsCollapseWs l)

/-- content.js getVisibleText, lines 424-444, on the extracted raw text. -/
def getVisibleText (s : String) : String := ⟨getVisibleTextClean s.data⟩

/-- True when the list does not start with a whitespace character. -/
def noLeadWs (l : List Char) : Bool :=
  match l with
  | [] => true
  | c :: _ => !isWs c

/-- True when the list does not end with a whitespace character. -/
def noTrailWs (l : List Char) : Bool := noLeadWs l.reverse

/-- Every whitespace character of the list is the plain space. -/
def allWsSpace (l : List Char) : Bool := l.all fun c => !isWs c || c == ' '

/-- No two adjacent characters are both whitespace. -/
def WsRunFree (l : List Char) : Prop :=
  l.Chain' fun a b => ¬(isWs a = true ∧ isWs b = true)

/-- A model-not-found error message in the style of the live API. -/
def msgNotFound : String :=
  "models/gemini-1.5-flash is not found for API version v1beta, or is not supported for generateContent."

/-- A generation response carrying a model-not-found error, in the style of
the live API. -/
def respNotFound : GenResponse := ⟨false, some msgNotFound, none⟩

/-- A successful generation response whose first candidate text is "S". -/
def respOkS : GenResponse := ⟨true, none, some [⟨some ⟨some [⟨some "S"⟩]⟩⟩]⟩

/-- A non-ok generation response carrying an authentication error. -/
def respAuth : GenResponse := ⟨false, some "API key not valid. Please pass a valid API key.", none⟩

/-- An ok generation response with an empty candidates array. -/
def respEmptyCands : GenResponse := ⟨true, none, some []⟩

/-- An ok generation response whose first candidate lacks the content field. -/
def respNoContent : GenResponse := ⟨true, none, some [⟨none⟩]⟩

/-- A listing response with one capable model whose name contains "models/"
in the middle rather than as a prefix. -/
def r6 : ListResponse := ⟨true, some [⟨"a/models/b", some ["generateContent"]⟩]⟩

/-- A listing response with provider-shaped names: one generation-capable
model and one embedding model. -/
def r6w : ListResponse :=
  ⟨true, some [⟨"models/gemini-2.0-flash", some ["generateContent"]⟩,
               ⟨"models/text-embedding-004", some ["embedContent"]⟩]⟩

/-- A world where the first static model fails with a not-found error, the
second succeeds, and listing is unreachable. -/
def w0 : World :=
  ⟨fun m => if m = "gemini-1.5-flash-latest" then .resp respOkS else .resp respNotFound, .netError⟩

/-- A world where every generation attempt succeeds at once. -/
def wFirstOk : World := ⟨fun _ => .resp respOkS, .netError⟩

/-- A world where every generation attempt fails with a not-found error and
the listing request is rejected with a non-ok status. -/
def wAllFail : World := ⟨fun _ => .resp respNotFound, .resp ⟨false, none⟩⟩

/-- A world where every static model fails with a not-found error, the
listing returns a single capable model named exactly "models/" (which strips
to the empty string), and generation on the empty-named model succeeds. -/
def w2 : World :=
  ⟨fun m => if m = "" then .resp respOkS else .resp respNotFound,
   .resp ⟨true, some [⟨"models/", some ["generateContent"]⟩]⟩⟩

/-- C3: with the empty stored API key, handleSummarize fails immediately with
the missing-credential status message and issues zero network requests. -/
theorem C3_missing_key (apiKey : String) (validModelName : Option String) (w : World)
    (h : apiKey = "") :
    handleSummarize apiKey validModelName w =
      .missingKey "Missing API Key. Click 'Settings' to add it." ∧
    networkCalls (handleSummarize apiKey validModelName w) = 0 := by
  subst h
  exact ⟨rfl, rfl⟩

/-- C3 witness: the empty-key short circuit at a concrete world. -/
theorem C3_missing_key_witness :
    handleSummarize "" none w0 =
      .missingKey "Missing API Key. Click 'Settings' to add it." ∧
    networkCalls (handleSummarize "" none w0) = 0 :=
  C3_missing_key "" none w0 rfl

/-- C8: the outgoing request embeds, after the fixed prompt, exactly the
first maxLength characters of the text; the prefix is kept and the suffix
dropped, text of length at most maxLength is sent unchanged, and longer text
is cut to exactly maxLength characters. -/
theorem C8_truncation (text : List Char) :
    (requestText text).drop promptHeader.data.length = text.take maxLength ∧
    truncatedText text ++ text.drop maxLength = text ∧
    (text.length ≤ maxLength → (requestText text).drop promptHeader.data.length = text) ∧
    (maxLength ≤ text.length →
      ((requestText text).drop promptHeader.data.length).length = maxLength) := by
  have hdrop : (requestText text).drop promptHeader.data.length = text.take maxLength := by
    unfold requestText truncatedText
    exact List.drop_left _ _
  refine ⟨hdrop, List.take_append_drop _ _, ?_, ?_⟩
  · intro hle
    rw [hdrop]
    exact List.take_of_length_le hle
  · intro hge
    rw [hdrop, List.length_take]
    exact Nat.min_eq_left hge

/-- C8 witness: a two-character text is embedded unchanged, and an overlong
text is cut to exactly the budget. -/
theorem C8_truncation_witness :
    (requestText ['a', 'b']).drop promptHeader.data.length = ['a', 'b'] ∧
    ((requestText (List.replicate (maxLength + 1) 'x')).drop
      promptHeader.data.length).length = maxLength :=
  ⟨(C8_truncation ['a', 'b']).2.2.1 (by decide),
   (C8_truncation (List.replicate (maxLength + 1) 'x')).2.2.2
     (by simp [List.length_replicate])⟩

/-- C10: a successful response with a nonempty candidates list whose first
candidate lacks the content field makes tryGenerateContent fail with an
uncontrolled TypeError, not with a classified Error and not with success. -/
theorem C10_unguarded_access :
    respNoContent.ok = true ∧
    respNoContent.candidates = some [⟨none⟩] ∧
    tryGenerateContent (.resp respNoContent) =
      .error (.typeError "Cannot read properties of undefined (reading 'parts')") ∧
    (∀ msg, tryGenerateContent (.resp respNoContent) ≠ .error (.error msg)) ∧
    (∀ t, tryGenerateContent (.resp respNoContent) ≠ .ok t) := by
  refine ⟨rfl, rfl, rfl, ?_, ?_⟩ <;>
    intro x h <;> simp [tryGenerateContent, respNoContent] at h

/-- C5: an HTTP-successful response without candidates fails with the
empty-result error; that message matches neither retry signature, so inside a
sweep it aborts at once instead of moving to the next candidate. -/
theorem C5_empty_result (r : GenResponse) (hok : r.ok = true)
    (hc : r.candidates = some [] ∨ r.candidates = none) :
    tryGenerateContent (.resp r) = .error (.error "No summary returned from Gemini.") ∧
    isRetryableMsg "No summary returned from Gemini." = false ∧
    (∀ (gen : String → GenFetch) (m : String) (ms : List String)
        (lastError : Option JsError),
      gen m = .resp r →
      sweep gen (m :: ms) lastError =
        .exit (.error (.error "No summary returned from Gemini.")) [m]) := by
  have h1 : tryGenerateContent (.resp r) =
      .error (.error "No summary returned from Gemini.") := by
    unfold tryGenerateContent
    rcases hc with hc | hc <;> simp [hok, hc]
  have h2 : isRetryableMsg "No summary returned from Gemini." = false := by decide
  refine ⟨h1, h2, ?_⟩
  intro gen m ms lastError hg
  simp [sweep, hg, h1, JsError.message, h2]

/-- C5 witness: the empty-candidates response aborts a one-model sweep. -/
theorem C5_empty_result_witness :
    tryGenerateContent (.resp respEmptyCands) =
      .error (.error "No summary returned from Gemini.") ∧
    sweep (fun _ => .resp respEmptyCands) ["gemini-1.5-flash"] none =
      .exit (.error (.error "No summary returned from Gemini.")) ["gemini-1.5-flash"] := by
  have h := C5_empty_result respEmptyCands rfl (Or.inl rfl)
  exact ⟨h.1, h.2.2 _ "gemini-1.5-flash" [] none rfl⟩

/-- C4: a generation failure is retryable exactly when its message includes
"not found" or "not supported"; a retryable failure is remembered as
lastError (the rest of the sweep continues with it) while any other failure
aborts the sweep at once, surfacing that very error with no later candidate
attempted. -/
theorem C4_classification (gen : String → GenFetch) (m : String) (ms : List String)
    (lastError : Option JsError) (e : JsError)
    (h : tryGenerateContent (gen m) = .error e) :
    isRetryableMsg e.message =
      (jsIncludes e.message "not found" || jsIncludes e.message "not supported") ∧
    (isRetryableMsg e.message = true →
      sweep gen (m :: ms) lastError =
        match sweep gen ms (some e) with
        | .exit r tr => .exit r (m :: tr)
        | .fellThrough l tr => .fellThrough l (m :: tr)) ∧
    (isRetryableMsg e.message = false →
      sweep gen (m :: ms) lastError = .exit (.error e) [m]) := by
  refine ⟨rfl, ?_, ?_⟩ <;> intro hr <;> simp [sweep, h, hr]

/-- C4 witness: an authentication-style failure on the first model aborts a
two-model sweep without touching the second model. -/
theorem C4_classification_witness :
    sweep (fun _ => .resp respAuth) ["gemini-1.5-flash", "gemini-1.5-flash-latest"] none =
      .exit (.error (.error "API key not valid. Please pass a valid API key."))
        ["gemini-1.5-flash"] :=
  (C4_classification (fun _ => .resp respAuth) "gemini-1.5-flash"
    ["gemini-1.5-flash-latest"] none
    (.error "API key not valid. Please pass a valid API key.") (by decide)).2.2 (by decide)

/-- With no occurrence of the pattern, replace-first leaves the list
unchanged. -/
theorem jsReplaceFirstL_no_occ (pat rep : List Char) :
    ∀ l, containsSubL pat l = false → jsReplaceFirstL pat rep l = l := by
  intro l
  induction l with
  | nil => intro _; rfl
  | cons c cs ih =>
    intro h
    unfold containsSubL at h
    cases hp : List.isPrefixOf pat (c :: cs) with
    | true => rw [hp] at h; simp at h
    | false =>
      rw [hp] at h
      simp only [Bool.false_or] at h
      simp [jsReplaceFirstL, hp, ih h]

/-- With the pattern sitting at the front, replace-first rewrites exactly the
front. -/
theorem jsReplaceFirstL_pre (pat rep l : List Char) (hne : pat ≠ [])
    (h : pat.isPrefixOf l = true) :
    jsReplaceFirstL pat rep l = rep ++ l.drop pat.length := by
  cases l with
  | nil =>
    cases pat with
    | nil => exact absurd rfl hne
    | cons a as => simp [List.isPrefixOf] at h
  | cons c cs => simp [jsReplaceFirstL, h]

/-- A list with no occurrence of the pattern does not start with it. -/
theorem not_pre_of_no_occ (pat l : List Char) (h : containsSubL pat l = false) :
    pat.isPrefixOf l = false := by
  cases l with
  | nil =>
    unfold containsSubL at h
    cases pat with
    | nil => simp [List.isEmpty] at h
    | cons a as => rfl
  | cons c cs =>
    unfold containsSubL at h
    cases hp : List.isPrefixOf pat (c :: cs) with
    | true => rw [hp] at h; simp at h
    | false => rfl

/-- C6 (amended): discovery keeps exactly the generateContent-capable models;
each surviving name has its first occurrence of "models/" removed, which
coincides with stripping the prefix whenever "models/" occurs in the name
only as a leading prefix; and the fallback generation attempt uses the first
element of the resulting list. -/
theorem C6_discovery (apiKey : String) (r : ListResponse) (ms : List ListedModel)
    (hkey : apiKey ≠ "") (hok : r.ok = true) (hms : r.models = some ms) :
    checkModels apiKey (.resp r) =
      some ((ms.filter isCapable).map fun m => jsReplaceFirst m.name "models/" "") ∧
    (∀ s : String,
      "models/".data.isPrefixOf s.data = true ∨ containsSubL "models/".data s.data = false →
      jsReplaceFirst s "models/" "" = specStripModels s) ∧
    (∀ (w : World) (valid : Option String) (tr : List String)
        (lastError : Option JsError) (fb : String) (rest : List String),
      checkModels apiKey w.listing = some (fb :: rest) →
      (discoveryStep apiKey w valid tr lastError).genAttempts = tr ++ [fb]) := by
  refine ⟨?_, ?_, ?_⟩
  · simp [checkModels, hkey, hok, hms]
  · intro s hs
    rcases hs with hs | hs
    · unfold jsReplaceFirst specStripModels
      rw [jsReplaceFirstL_pre _ _ _ (by decide) hs, hs]
      simp
    · unfold jsReplaceFirst specStripModels
      rw [jsReplaceFirstL_no_occ _ _ _ hs, not_pre_of_no_occ _ _ hs]
      simp
  · intro w valid tr lastError fb rest hl
    unfold discoveryStep
    rw [hl]
    rcases ht : tryGenerateContent (w.gen fb) with t | e <;> simp [ht]

/-- C6 counterexample: on a capable model named "a/models/b" the code removes
the mid-string occurrence and yields "a/b", while prefix stripping as the
claim words it would leave the name unchanged. -/
theorem C6_cex :
    checkModels "k" (.resp r6) = some ["a/b"] ∧
    specStripModels "a/models/b" = "a/models/b" ∧
    ("a/b" : String) ≠ "a/models/b" := by
  refine ⟨?_, ?_, ?_⟩ <;> decide

/-- C6 witness: with provider-shaped names the capable model survives, the
embedding model is filtered out, and the prefix is stripped. -/
theorem C6_discovery_witness :
    checkModels "k" (.resp r6w) = some ["gemini-2.0-flash"] := by
  have h := C6_discovery "k" r6w
    [⟨"models/gemini-2.0-flash", some ["generateContent"]⟩,
     ⟨"models/text-embedding-004", some ["embedContent"]⟩]
    (by decide) rfl rfl
  exact h.1.trans (by decide)

/-- Equation: a successful first candidate exits the sweep at once. -/
theorem sweep_cons_ok (gen : String → GenFetch) (m : String) (ms : List String)
    (lastError : Option JsError) (t : Option String)
    (h : tryGenerateContent (gen m) = .ok t) :
    sweep gen (m :: ms) lastError = .exit (.ok t) [m] := by
  simp [sweep, h]

/-- Equation: a non-retryable failure on the first candidate exits the sweep
with that error. -/
theorem sweep_cons_fatal (gen : String → GenFetch) (m : String) (ms : List String)
    (lastError : Option JsError) (e : JsError)
    (h : tryGenerateContent (gen m) = .error e)
    (hr : isRetryableMsg e.message = false) :
    sweep gen (m :: ms) lastError = .exit (.error e) [m] := by
  simp [sweep, h, hr]

/-- Equation: callGeminiAPI when the sweep exits. -/
theorem callGeminiAPI_exit (apiKey : String) (valid : Option String) (w : World)
    (r : Except JsError (Option String)) (tr : List String)
    (hs : sweep w.gen (modelsToTry valid) none = .exit r tr) :
    callGeminiAPI apiKey valid w = ⟨r, valid, tr, false⟩ := by
  unfold callGeminiAPI
  rw [hs]

/-- Equation: callGeminiAPI when the sweep falls through to discovery. -/
theorem callGeminiAPI_fall (apiKey : String) (valid : Option String) (w : World)
    (l : Option JsError) (tr : List String)
    (hs : sweep w.gen (modelsToTry valid) none = .fellThrough l tr) :
    callGeminiAPI apiKey valid w = discoveryStep apiKey w valid tr l := by
  unfold callGeminiAPI
  rw [hs]

/-- Equation: discovery with a null listing result throws the terminal error. -/
theorem discoveryStep_eq_none (apiKey : String) (w : World) (valid : Option String)
    (tr : List String) (lastError : Option JsError)
    (h : checkModels apiKey w.listing = none) :
    discoveryStep apiKey w valid tr lastError =
      ⟨.error (.error (terminalMsg lastError)), valid, tr, true⟩ := by
  simp [discoveryStep, h]

/-- Equation: discovery with an empty candidate list throws the terminal
error. -/
theorem discoveryStep_eq_nil (apiKey : String) (w : World) (valid : Option String)
    (tr : List String) (lastError : Option JsError)
    (h : checkModels apiKey w.listing = some []) :
    discoveryStep apiKey w valid tr lastError =
      ⟨.error (.error (terminalMsg lastError)), valid, tr, true⟩ := by
  simp [discoveryStep, h]

/-- Equation: discovery whose first candidate succeeds returns its text and
caches the candidate. -/
theorem discoveryStep_eq_ok (apiKey : String) (w : World) (valid : Option String)
    (tr : List String) (lastError : Option JsError) (fb : String)
    (rest : List String) (t : Option String)
    (h : checkModels apiKey w.listing = some (fb :: rest))
    (hg : tryGenerateContent (w.gen fb) = .ok t) :
    discoveryStep apiKey w valid tr lastError = ⟨.ok t, some fb, tr ++ [fb], true⟩ := by
  simp [discoveryStep, h, hg]

/-- Equation: discovery whose first candidate fails throws the terminal error
embedding that failure and leaves the cache alone. -/
theorem discoveryStep_eq_err (apiKey : String) (w : World) (valid : Option String)
    (tr : List String) (lastError : Option JsError) (fb : String)
    (rest : List String) (e : JsError)
    (h : checkModels apiKey w.listing = some (fb :: rest))
    (hg : tryGenerateContent (w.gen fb) = .error e) :
    discoveryStep apiKey w valid tr lastError =
      ⟨.error (.error (terminalMsg (some e))), valid, tr ++ [fb], true⟩ := by
  simp [discoveryStep, h, hg]

/-- Every branch of the discovery step marks the listing endpoint as called. -/
theorem discoveryStep_listCalled (apiKey : String) (w : World) (valid : Option String)
    (tr : List String) (lastError : Option JsError) :
    (discoveryStep apiKey w valid tr lastError).listCalled = true := by
  rcases hc : checkModels apiKey w.listing with _ | ls
  · rw [discoveryStep_eq_none apiKey w valid tr lastError hc]
  · rcases ls with _ | ⟨fb, rest⟩
    · rw [discoveryStep_eq_nil apiKey w valid tr lastError hc]
    · cases ht : tryGenerateContent (w.gen fb) with
      | error e => rw [discoveryStep_eq_err apiKey w valid tr lastError fb rest e hc ht]
      | ok t => rw [discoveryStep_eq_ok apiKey w valid tr lastError fb rest t hc ht]

/-- Regardless of the starting cache, a call either leaves the cache
unchanged or overwrites it with a model whose generation succeeded; no
branch clears it. -/
theorem callGeminiAPI_newValid (apiKey : String) (valid : Option String) (w : World) :
    (callGeminiAPI apiKey valid w).newValid = valid ∨
    ∃ fb t, (callGeminiAPI apiKey valid w).newValid = some fb ∧
      (callGeminiAPI apiKey valid w).result = .ok t ∧
      tryGenerateContent (w.gen fb) = .ok t := by
  rcases hs : sweep w.gen (modelsToTry valid) none with ⟨r, tr⟩ | ⟨l, tr⟩
  · rw [callGeminiAPI_exit apiKey valid w r tr hs]
    exact Or.inl rfl
  · rw [callGeminiAPI_fall apiKey valid w l tr hs]
    rcases hc : checkModels apiKey w.listing with _ | ls
    · rw [discoveryStep_eq_none apiKey w valid tr l hc]
      exact Or.inl rfl
    · rcases ls with _ | ⟨fb, rest⟩
      · rw [discoveryStep_eq_nil apiKey w valid tr l hc]
        exact Or.inl rfl
      · cases hg : tryGenerateContent (w.gen fb) with
        | ok t =>
          rw [discoveryStep_eq_ok apiKey w valid tr l fb rest t hc hg]
          exact Or.inr ⟨fb, t, rfl, rfl, hg⟩
        | error e =>
          rw [discoveryStep_eq_err apiKey w valid tr l fb rest e hc hg]
          exact Or.inl rfl

/-- C2 (amended): with resolvedModel set to a non-empty v, a summarize call
attempts v alone (the static preference list is never consulted; a second
attempt can only be the discovery candidate) — the empty string, though
cacheable, is falsy to the line-178 truthiness check and does not select the
single-candidate list — and, for any cached value, the cache is never
cleared: it changes only by being overwritten with a model whose generation
succeeded. -/
theorem C2_cache_invariant (apiKey v : String) (w : World) :
    (v ≠ "" →
      ((callGeminiAPI apiKey (some v) w).genAttempts = [v] ∨
        ∃ fb rest, checkModels apiKey w.listing = some (fb :: rest) ∧
          (callGeminiAPI apiKey (some v) w).genAttempts = [v, fb])) ∧
    ((callGeminiAPI apiKey (some v) w).newValid = some v ∨
      ∃ fb t, (callGeminiAPI apiKey (some v) w).newValid = some fb ∧
        (callGeminiAPI apiKey (some v) w).result = .ok t ∧
        tryGenerateContent (w.gen fb) = .ok t) := by
  refine ⟨?_, callGeminiAPI_newValid apiKey (some v) w⟩
  intro hv
  have hm : modelsToTry (some v) = [v] := by simp [modelsToTry, hv]
  cases ht : tryGenerateContent (w.gen v) with
  | ok t =>
    have hs : sweep w.gen (modelsToTry (some v)) none = .exit (.ok t) [v] := by
      rw [hm]; exact sweep_cons_ok w.gen v [] none t ht
    rw [callGeminiAPI_exit apiKey (some v) w (.ok t) [v] hs]
    exact Or.inl rfl
  | error e =>
    cases hr : isRetryableMsg e.message with
    | false =>
      have hs : sweep w.gen (modelsToTry (some v)) none = .exit (.error e) [v] := by
        rw [hm]; exact sweep_cons_fatal w.gen v [] none e ht hr
      rw [callGeminiAPI_exit apiKey (some v) w (.error e) [v] hs]
      exact Or.inl rfl
    | true =>
      have hs : sweep w.gen (modelsToTry (some v)) none = .fellThrough (some e) [v] := by
        rw [hm]; simp [sweep, ht, hr]
      rw [callGeminiAPI_fall apiKey (some v) w (some e) [v] hs]
      rcases hc : checkModels apiKey w.listing with _ | ls
      · rw [discoveryStep_eq_none apiKey w (some v) [v] (some e) hc]
        exact Or.inl rfl
      · rcases ls with _ | ⟨fb, rest⟩
        · rw [discoveryStep_eq_nil apiKey w (some v) [v] (some e) hc]
          exact Or.inl rfl
        · cases hg : tryGenerateContent (w.gen fb) with
          | ok t2 =>
            rw [discoveryStep_eq_ok apiKey w (some v) [v] (some e) fb rest t2 hc hg]
            exact Or.inr ⟨fb, rest, rfl, rfl⟩
          | error e2 =>
            rw [discoveryStep_eq_err apiKey w (some v) [v] (some e) fb rest e2 hc hg]
            exact Or.inr ⟨fb, rest, rfl, rfl⟩

/-- C2 counterexample: a discovered model named exactly "models/" strips to
the empty string and is cached into resolvedModel; the empty string is falsy
to the line-178 truthiness check, so the immediately following call consults
the full static preference list instead of building its candidate list as
exactly the cached model. -/
theorem C2_cex :
    (callGeminiAPI "k" none w2).newValid = some "" ∧
    (callGeminiAPI "k" ((callGeminiAPI "k" none w2).newValid) w2).genAttempts =
      ["gemini-1.5-flash", "gemini-1.5-flash-latest", "gemini-pro", ""] ∧
    (callGeminiAPI "k" ((callGeminiAPI "k" none w2).newValid) w2).genAttempts ≠ [""] := by
  refine ⟨?_, ?_, ?_⟩ <;> decide

/-- C2 witness: a cached non-empty model is attempted alone when it succeeds,
exercising the non-emptiness hypothesis. -/
theorem C2_cache_invariant_witness :
    (callGeminiAPI "k" (some "gemini-pro") wFirstOk).genAttempts = ["gemini-pro"] ∨
      ∃ fb rest, checkModels "k" wFirstOk.listing = some (fb :: rest) ∧
        (callGeminiAPI "k" (some "gemini-pro") wFirstOk).genAttempts = ["gemini-pro", fb] :=
  (C2_cache_invariant "k" "gemini-pro" wFirstOk).1 (by decide)

/-- C1 (amended): a success during the static sweep is returned without being
recorded into the resolvedModel cache; only a success on the dynamically
discovered candidate is recorded, so after a static-list success the next
call sweeps the static list from the top again. -/
theorem C1_no_static_caching (apiKey : String) (w : World)
    (h : (callGeminiAPI apiKey none w).listCalled = false) :
    (callGeminiAPI apiKey none w).newValid = none := by
  rcases hs : sweep w.gen (modelsToTry none) none with ⟨r, tr⟩ | ⟨l, tr⟩
  · rw [callGeminiAPI_exit apiKey none w r tr hs]
  · rw [callGeminiAPI_fall apiKey none w l tr hs] at h
    rw [discoveryStep_listCalled] at h
    exact absurd h (by decide)

/-- C1 witness: when the first static model succeeds, discovery never runs
and the cache stays empty. -/
theorem C1_no_static_caching_witness :
    (callGeminiAPI "k" none wFirstOk).newValid = none :=
  C1_no_static_caching "k" wFirstOk (by decide)

/-- C1 counterexample: the first static model fails with a not-found error
and the second succeeds; summarize returns its result, yet resolvedModel is
not recorded, and the immediately following call does not attempt that model
first and only it (it re-sweeps the static list from the top). -/
theorem C1_cex :
    (callGeminiAPI "k" none w0).result = .ok (some "S") ∧
    (callGeminiAPI "k" none w0).genAttempts =
      ["gemini-1.5-flash", "gemini-1.5-flash-latest"] ∧
    (callGeminiAPI "k" none w0).newValid = none ∧
    (callGeminiAPI "k" (callGeminiAPI "k" none w0).newValid w0).genAttempts ≠
      ["gemini-1.5-flash-latest"] := by
  refine ⟨?_, ?_, ?_, ?_⟩ <;> decide

/-- C7: a non-ok or rejected listing response yields no candidates instead of
throwing; and once every static candidate has failed retryably, an empty or
failed discovery (or a failed attempt on the discovered candidate) ends the
call with the single terminal error embedding the most recent underlying
message, with "Unknown" standing in when nothing usable was recorded. -/
theorem C7_no_working_model (apiKey : String) (w : World) (eA eB eC : JsError)
    (hA : tryGenerateContent (w.gen "gemini-1.5-flash") = .error eA)
    (hB : tryGenerateContent (w.gen "gemini-1.5-flash-latest") = .error eB)
    (hC : tryGenerateContent (w.gen "gemini-pro") = .error eC)
    (rA : isRetryableMsg eA.message = true)
    (rB : isRetryableMsg eB.message = true)
    (rC : isRetryableMsg eC.message = true) :
    (∀ r : ListResponse, r.ok = false → checkModels apiKey (.resp r) = none) ∧
    checkModels apiKey .netError = none ∧
    ((checkModels apiKey w.listing = none ∨ checkModels apiKey w.listing = some []) →
      callGeminiAPI apiKey none w =
        ⟨.error (.error (terminalMsg (some eC))), none, staticModels, true⟩) ∧
    (∀ (fb : String) (rest : List String) (e2 : JsError),
      checkModels apiKey w.listing = some (fb :: rest) →
      tryGenerateContent (w.gen fb) = .error e2 →
      callGeminiAPI apiKey none w =
        ⟨.error (.error (terminalMsg (some e2))), none, staticModels ++ [fb], true⟩) ∧
    (∀ e : JsError, e.message ≠ "" →
      terminalMsg (some e) =
        "Could not find any working Gemini model. Last error: " ++ e.message) ∧
    terminalMsg none = "Could not find any working Gemini model. Last error: Unknown" := by
  have hsweep : sweep w.gen (modelsToTry none) none =
      .fellThrough (some eC) staticModels := by
    simp [modelsToTry, staticModels, sweep, hA, hB, hC, rA, rB, rC]
  refine ⟨?_, ?_, ?_, ?_, ?_, rfl⟩
  · intro r hok
    unfold checkModels
    split
    · rfl
    · simp [hok]
  · unfold checkModels
    split <;> rfl
  · intro hl
    rw [callGeminiAPI_fall apiKey none w (some eC) staticModels hsweep]
    rcases hl with hl | hl
    · rw [discoveryStep_eq_none apiKey w none staticModels (some eC) hl]
    · rw [discoveryStep_eq_nil apiKey w none staticModels (some eC) hl]
  · intro fb rest e2 hl hg
    rw [callGeminiAPI_fall apiKey none w (some eC) staticModels hsweep]
    rw [discoveryStep_eq_err apiKey w none staticModels (some eC) fb rest e2 hl hg]
  · intro e he
    simp [terminalMsg, jsStrOr, he]

/-- C7 witness: all three static models fail with the not-found message and
the listing request is refused, so the call ends with the terminal error
embedding that message. -/
theorem C7_no_working_model_witness :
    callGeminiAPI "k" none wAllFail =
      ⟨.error (.error (terminalMsg (some (.error msgNotFound)))), none,
        staticModels, true⟩ := by
  have h := C7_no_working_model "k" wAllFail (.error msgNotFound) (.error msgNotFound)
    (.error msgNotFound) (by decide) (by decide) (by decide)
    (by decide) (by decide) (by decide)
  exact h.2.2.1 (Or.inl (by decide))

/-- The collapse pass started in whitespace mode never emits a leading
whitespace character. -/
theorem collapseAux_noLead : ∀ l : List Char, noLeadWs (collapseAux true l) = true := by
  intro l
  induction l with
  | nil => rfl
  | cons c cs ih =>
    cases hw : isWs c with
    | true => simpa [collapseAux, hw] using ih
    | false => simp [collapseAux, hw, noLeadWs]

/-- The tail of a run-free list is run-free. -/
theorem wsRunFree_tail {c : Char} {cs : List Char} (h : WsRunFree (c :: cs)) :
    WsRunFree cs := by
  unfold WsRunFree at *
  exact h.tail

/-- After a whitespace head, a run-free list continues with a non-whitespace
character. -/
theorem wsRunFree_head_not {c : Char} {cs : List Char} (h : WsRunFree (c :: cs))
    (hw : isWs c = true) : noLeadWs cs = true := by
  unfold WsRunFree at h
  rw [List.chain'_cons'] at h
  cases cs with
  | nil => rfl
  | cons d ds =>
    have hR := h.1 d rfl
    have hd : isWs d = false := by
      cases hdd : isWs d with
      | false => rfl
      | true => exact absurd ⟨hw, hdd⟩ hR
    simp [noLeadWs, hd]

/-- The collapse pass never creates two adjacent whitespace characters. -/
theorem collapseAux_wsRunFree : ∀ (l : List Char) (b : Bool), WsRunFree (collapseAux b l) := by
  intro l
  induction l with
  | nil => intro b; exact List.chain'_nil
  | cons c cs ih =>
    intro b
    cases hw : isWs c with
    | false =>
      have h : collapseAux b (c :: cs) = c :: collapseAux false cs := by
        cases b <;> simp [collapseAux, hw]
      rw [h]
      unfold WsRunFree
      rw [List.chain'_cons']
      refine ⟨?_, ih false⟩
      intro y _ hcontra
      rw [hw] at hcontra
      exact absurd hcontra.1 (by simp)
    | true =>
      cases b with
      | true => simpa [collapseAux, hw] using ih true
      | false =>
        have h : collapseAux false (c :: cs) = ' ' :: collapseAux true cs := by
          simp [collapseAux, hw]
        rw [h]
        unfold WsRunFree
        rw [List.chain'_cons']
        refine ⟨?_, ih true⟩
        intro y hy hcontra
        have hnl := collapseAux_noLead cs
        cases hcol : collapseAux true cs with
        | nil => rw [hcol] at hy; simp at hy
        | cons d ds =>
          rw [hcol] at hy
          simp at hy
          subst hy
          rw [hcol] at hnl
          have hd : isWs d = false := by simpa [noLeadWs] using hnl
          rw [hd] at hcontra
          exact absurd hcontra.2 (by simp)

/-- Every whitespace character the collapse pass emits is the plain space. -/
theorem collapseAux_allWsSpace : ∀ (l : List Char) (b : Bool),
    allWsSpace (collapseAux b l) = true := by
  intro l
  induction l with
  | nil => intro b; rfl
  | cons c cs ih =>
    intro b
    cases hw : isWs c with
    | false =>
      have h : collapseAux b (c :: cs) = c :: collapseAux false cs := by
        cases b <;> simp [collapseAux, hw]
      rw [h]
      unfold allWsSpace at ih ⊢
      rw [List.all_cons, hw]
      rw [show ((!false || c == ' ') && (collapseAux false cs).all fun c => !isWs c || c == ' ') =
          ((collapseAux false cs).all fun c => !isWs c || c == ' ') from by
        rw [Bool.not_false, Bool.true_or, Bool.true_and]]
      exact ih false
    | true =>
      cases b with
      | true => simpa [collapseAux, hw] using ih true
      | false =>
        have h : collapseAux false (c :: cs) = ' ' :: collapseAux true cs := by
          simp [collapseAux, hw]
        rw [h]
        unfold allWsSpace at ih ⊢
        rw [List.all_cons]
        have hsp : (!isWs ' ' || ' ' == ' ') = true := by decide
        rw [hsp, Bool.true_and]
        exact ih true

/-- Run-freeness is preserved by list reversal. -/
theorem wsRunFree_reverse (l : List Char) (h : WsRunFree l) : WsRunFree l.reverse := by
  unfold WsRunFree at *
  rw [List.chain'_reverse]
  exact h.imp fun a b hab hc => hab ⟨hc.2, hc.1⟩

/-- Run-freeness is preserved by the trim step. -/
theorem wsRunFree_trim (l : List Char) (h : WsRunFree l) : WsRunFree (jsTrimL l) := by
  unfold jsTrimL
  apply wsRunFree_reverse
  have h1 : WsRunFree (l.dropWhile isWs) := by
    unfold WsRunFree at h ⊢
    exact h.suffix (List.dropWhile_suffix _)
  have h2 := wsRunFree_reverse _ h1
  unfold WsRunFree at h2 ⊢
  exact h2.suffix (List.dropWhile_suffix _)

/-- The space-only-whitespace property is preserved by the trim step. -/
theorem allWsSpace_trim (l : List Char) (h : allWsSpace l = true) :
    allWsSpace (jsTrimL l) = true := by
  unfold allWsSpace at h ⊢
  rw [List.all_eq_true] at h ⊢
  intro c hc
  apply h
  unfold jsTrimL at hc
  rw [List.mem_reverse] at hc
  have hc1 := ((List.dropWhile_suffix isWs).sublist).subset hc
  rw [List.mem_reverse] at hc1
  exact ((List.dropWhile_suffix isWs).sublist).subset hc1

/-- Dropping leading whitespace leaves no leading whitespace. -/
theorem noLeadWs_dropWhile (l : List Char) : noLeadWs (l.dropWhile isWs) = true := by
  induction l with
  | nil => rfl
  | cons c cs ih =>
    cases hw : isWs c with
    | true => simpa [List.dropWhile_cons, hw] using ih
    | false => simp [List.dropWhile_cons, hw, noLeadWs]

/-- Dropping a leading segment either empties the list or keeps its last
element. -/
theorem getLast?_dropWhile (l : List Char) :
    l.dropWhile isWs = [] ∨ (l.dropWhile isWs).getLast? = l.getLast? := by
  induction l with
  | nil => exact Or.inl rfl
  | cons c cs ih =>
    cases hw : isWs c with
    | false => right; simp [List.dropWhile_cons, hw]
    | true =>
      have hd : (c :: cs).dropWhile isWs = cs.dropWhile isWs := by
        simp [List.dropWhile_cons, hw]
      cases cs with
      | nil => left; rw [hd]; rfl
      | cons d ds =>
        rcases ih with hnil | hlast
        · left; rw [hd, hnil]
        · right; rw [hd, hlast, List.getLast?_cons_cons]

/-- The trim step leaves no leading whitespace. -/
theorem jsTrimL_noLead (l : List Char) : noLeadWs (jsTrimL l) = true := by
  unfold jsTrimL
  rcases getLast?_dropWhile ((l.dropWhile isWs).reverse) with hnil | hlast
  · rw [hnil]; rfl
  · cases hrev : ((l.dropWhile isWs).reverse.dropWhile isWs).reverse with
    | nil => simp [noLeadWs]
    | cons c cs =>
      have h1 : ((l.dropWhile isWs).reverse.dropWhile isWs).reverse.head? = some c := by
        rw [hrev]; rfl
      rw [List.head?_reverse] at h1
      rw [hlast] at h1
      rw [List.getLast?_reverse] at h1
      have h2 := noLeadWs_dropWhile l
      cases hN : l.dropWhile isWs with
      | nil => rw [hN] at h1; simp at h1
      | cons d ds =>
        rw [hN] at h1 h2
        simp at h1
        rw [h1] at h2
        simpa [noLeadWs] using h2

/-- The trim step leaves no trailing whitespace. -/
theorem jsTrimL_noTrail (l : List Char) : noTrailWs (jsTrimL l) = true := by
  unfold noTrailWs jsTrimL
  rw [List.reverse_reverse]
  exact noLeadWs_dropWhile _

/-- On run-free text whose whitespace is all plain spaces, the collapse pass
is the identity (in whitespace mode, provided the text does not start with
whitespace). -/
theorem collapse_fix : ∀ l : List Char, WsRunFree l → allWsSpace l = true →
    collapseAux false l = l ∧ (noLeadWs l = true → collapseAux true l = l) := by
  intro l
  induction l with
  | nil => intro _ _; exact ⟨rfl, fun _ => rfl⟩
  | cons c cs ih =>
    intro hrf has
    have hrfcs := wsRunFree_tail hrf
    have has2 := has
    unfold allWsSpace at has2
    rw [List.all_cons] at has2
    simp only [Bool.and_eq_true] at has2
    have hascs : allWsSpace cs = true := has2.2
    cases hw : isWs c with
    | false =>
      have h3 := (ih hrfcs hascs).1
      constructor
      · rw [show collapseAux false (c :: cs) = c :: collapseAux false cs from by
          simp [collapseAux, hw]]
        rw [h3]
      · intro _
        rw [show collapseAux true (c :: cs) = c :: collapseAux false cs from by
          simp [collapseAux, hw]]
        rw [h3]
    | true =>
      have hc : c = ' ' := by
        have := has2.1
        rw [hw] at this
        simpa using this
      have hlead := wsRunFree_head_not hrf hw
      have h4 := (ih hrfcs hascs).2 hlead
      constructor
      · rw [show collapseAux false (c :: cs) = ' ' :: collapseAux true cs from by
          simp [collapseAux, hw]]
        rw [h4, hc]
      · intro hcontra
        rw [show noLeadWs (c :: cs) = !isWs c from rfl, hw] at hcontra
        simp at hcontra

/-- A list with no leading whitespace is unchanged by dropWhile. -/
theorem dropWhile_of_noLead (l : List Char) (h : noLeadWs l = true) :
    l.dropWhile isWs = l := by
  cases l with
  | nil => rfl
  | cons c cs =>
    have hw : isWs c = false := by simpa [noLeadWs] using h
    simp [List.dropWhile_cons, hw]

/-- Text with no leading and no trailing whitespace is unchanged by trim. -/
theorem trim_fix (l : List Char) (h1 : noLeadWs l = true) (h2 : noTrailWs l = true) :
    jsTrimL l = l := by
  unfold jsTrimL
  rw [dropWhile_of_noLead l h1]
  rw [dropWhile_of_noLead l.reverse h2]
  rw [List.reverse_reverse]

/-- C9: the extractor output has no two adjacent whitespace characters, no
leading and no trailing whitespace, and the collapse-and-trim step is
idempotent: applied to its own output it returns the output unchanged. -/
theorem C9_extractor (s : String) :
    WsRunFree (getVisibleText s).data ∧
    noLeadWs (getVisibleText s).data = true ∧
    noTrailWs (getVisibleText s).data = true ∧
    getVisibleText (getVisibleText s) = getVisibleText s := by
  have hrf : WsRunFree (getVisibleTextClean s.data) :=
    wsRunFree_trim _ (collapseAux_wsRunFree s.data false)
  have hall : allWsSpace (getVisibleTextClean s.data) = true :=
    allWsSpace_trim _ (collapseAux_allWsSpace s.data false)
  have hlead : noLeadWs (getVisibleTextClean s.data) = true := jsTrimL_noLead _
  have htrail : noTrailWs (getVisibleTextClean s.data) = true := jsTrimL_noTrail _
  have hfix : getVisibleTextClean (getVisibleTextClean s.data) = getVisibleTextClean s.data := by
    have hcoll : jsCollapseWs (getVisibleTextClean s.data) = getVisibleTextClean s.data :=
      (collapse_fix _ hrf hall).1
    calc getVisibleTextClean (getVisibleTextClean s.data)
        = jsTrimL (jsCollapseWs (getVisibleTextClean s.data)) := rfl
      _ = jsTrimL (getVisibleTextClean s.data) := by rw [hcoll]
      _ = getVisibleTextClean s.data := trim_fix _ hlead htrail
  exact ⟨hrf, hlead, htrail, congrArg String.mk hfix⟩

end AntiGravity
